import Mathlib

/-!
Verification of the thunk-adjustment data model (include/clang/Basic/ABI.h)
and of the spec's multiversion-resolver and adjustment-calculator contracts.

The C++ unions `VirtualAdjustment` hold raw overlapping storage that the
code compares with `memcmp`; they are embedded as fixed-length byte lists
(8 bytes for the ReturnAdjustment union, 16 for the ThisAdjustment union,
the 64-bit layout sizes), with `memcmp` as the lexicographic byte
comparison over unsigned bytes.  Raw `CXXRecordDecl*` / `CXXMethodDecl*`
identity pointers are embedded as `Option Nat` (none = NULL); `int64_t`
offsets as `Int` (the code performs no arithmetic on them, only
comparison).
-/

/-- The result of `memcmp` over two byte sequences of the same length:
lexicographic comparison of unsigned bytes. -/
def memcmpBytes : List Nat → List Nat → Ordering
  | [], _ => Ordering.eq
  | _ :: _, [] => Ordering.eq
  | a :: as, b :: bs =>
      if a < b then Ordering.lt
      else if b < a then Ordering.gt
      else memcmpBytes as bs

/-- Raw storage of a C union of `n` bytes, as the code's `memcmp`-based
operations see it. -/
structure UnionBytes (n : Nat) where
  bytes : List Nat
  hlen : bytes.length = n
  hbyte : ∀ b ∈ bytes, b < 256

/-- `VirtualAdjustment()`: `memset(this, 0, sizeof(*this))`. -/
def UnionBytes.zero (n : Nat) : UnionBytes n where
  bytes := List.replicate n 0
  hlen := List.length_replicate n 0
  hbyte := fun b hb => by
    have := List.eq_of_mem_replicate hb
    omega

/-- `VirtualAdjustment::Equals`: `memcmp(this, &Other, sizeof(Other)) == 0`. -/
def UnionBytes.Equals {n : Nat} (a other : UnionBytes n) : Bool :=
  memcmpBytes a.bytes other.bytes == Ordering.eq

/-- `VirtualAdjustment::isEmpty`: compare against a default-constructed
(zeroed) union. -/
def UnionBytes.isEmpty {n : Nat} (a : UnionBytes n) : Bool :=
  UnionBytes.Equals a (UnionBytes.zero n)

/-- `VirtualAdjustment::Less`: `memcmp(this, &RHS, sizeof(RHS)) < 0`. -/
def UnionBytes.Less {n : Nat} (a rhs : UnionBytes n) : Bool :=
  memcmpBytes a.bytes rhs.bytes == Ordering.lt

/-- `struct ReturnAdjustment` of ABI.h: non-virtual offset, the 8-byte
virtual-adjustment union, and the two `CXXRecordDecl*` endpoints. -/
structure ReturnAdjustment where
  NonVirtual : Int
  Virtual : UnionBytes 8
  AdjustmentTarget : Option Nat
  AdjustmentSource : Option Nat

/-- `ReturnAdjustment(bool byteAddressable, const CXXRecordDecl* t, const
CXXRecordDecl* s)`: zero offset, zeroed union, endpoints nulled out when
`byteAddressable`. -/
def ReturnAdjustment.make (byteAddressable : Bool) (t s : Option Nat) : ReturnAdjustment where
  NonVirtual := 0
  Virtual := UnionBytes.zero 8
  AdjustmentTarget := if byteAddressable then none else t
  AdjustmentSource := if byteAddressable then none else s

/-- `ReturnAdjustment::isEmpty`: `!NonVirtual && Virtual.isEmpty()`. -/
def ReturnAdjustment.isEmpty (a : ReturnAdjustment) : Bool :=
  decide (a.NonVirtual = 0) && UnionBytes.isEmpty a.Virtual

/-- `operator==(const ReturnAdjustment&, const ReturnAdjustment&)`:
offset, union bytes, and both endpoints. -/
def ReturnAdjustment.eqOp (lhs rhs : ReturnAdjustment) : Bool :=
  decide (lhs.NonVirtual = rhs.NonVirtual) && UnionBytes.Equals lhs.Virtual rhs.Virtual
    && decide (lhs.AdjustmentSource = rhs.AdjustmentSource)
    && decide (lhs.AdjustmentTarget = rhs.AdjustmentTarget)

/-- `operator<(const ReturnAdjustment&, const ReturnAdjustment&)`:
non-virtual offset first, then the union byte-wise. -/
def ReturnAdjustment.ltOp (lhs rhs : ReturnAdjustment) : Bool :=
  if lhs.NonVirtual < rhs.NonVirtual then true
  else decide (lhs.NonVirtual = rhs.NonVirtual) && UnionBytes.Less lhs.Virtual rhs.Virtual

/-- `struct ThisAdjustment` of ABI.h: non-virtual offset, the 16-byte
virtual-adjustment union, the endpoints, and the traversed base path. -/
structure ThisAdjustment where
  NonVirtual : Int
  Virtual : UnionBytes 16
  AdjustmentTarget : Option Nat
  AdjustmentSource : Option Nat
  AdjustmentPath : List Nat

/-- `ThisAdjustment(const CXXRecordDecl* t, const CXXRecordDecl* s)`:
zero offset, zeroed union, default-constructed (empty) path. -/
def ThisAdjustment.make (t s : Option Nat) : ThisAdjustment where
  NonVirtual := 0
  Virtual := UnionBytes.zero 16
  AdjustmentTarget := t
  AdjustmentSource := s
  AdjustmentPath := []

/-- `ThisAdjustment::isEmpty`: `!NonVirtual && Virtual.isEmpty()`. -/
def ThisAdjustment.isEmpty (a : ThisAdjustment) : Bool :=
  decide (a.NonVirtual = 0) && UnionBytes.isEmpty a.Virtual

/-- `operator==(const ThisAdjustment&, const ThisAdjustment&)`: offset and
union bytes only — the endpoints and the path are not compared. -/
def ThisAdjustment.eqOp (lhs rhs : ThisAdjustment) : Bool :=
  decide (lhs.NonVirtual = rhs.NonVirtual) && UnionBytes.Equals lhs.Virtual rhs.Virtual

/-- `operator<(const ThisAdjustment&, const ThisAdjustment&)`:
non-virtual offset first, then the union byte-wise. -/
def ThisAdjustment.ltOp (lhs rhs : ThisAdjustment) : Bool :=
  if lhs.NonVirtual < rhs.NonVirtual then true
  else decide (lhs.NonVirtual = rhs.NonVirtual) && UnionBytes.Less lhs.Virtual rhs.Virtual

/-- `struct ThunkInfo` of ABI.h. -/
structure ThunkInfo where
  This : ThisAdjustment
  Return : ReturnAdjustment
  Method : Option Nat
  isMemberPointerThunk : Bool

/-- `ThunkInfo()`: `This(NULL, NULL), Return(false, 0, 0), Method(nullptr),
isMemberPointerThunk(false)`. -/
def ThunkInfo.default : ThunkInfo where
  This := ThisAdjustment.make none none
  Return := ReturnAdjustment.make false none none
  Method := none
  isMemberPointerThunk := false

/-- `ThunkInfo(const ThisAdjustment&, const ReturnAdjustment&, const
CXXMethodDecl*)`: the flag defaults to false. -/
def ThunkInfo.ofParts (ta : ThisAdjustment) (ra : ReturnAdjustment) (m : Option Nat) : ThunkInfo where
  This := ta
  Return := ra
  Method := m
  isMemberPointerThunk := false

/-- `operator==(const ThunkInfo&, const ThunkInfo&)`: This, Return and
Method — not the member-pointer flag. -/
def ThunkInfo.eqOp (lhs rhs : ThunkInfo) : Bool :=
  ThisAdjustment.eqOp lhs.This rhs.This && ReturnAdjustment.eqOp lhs.Return rhs.Return
    && decide (lhs.Method = rhs.Method)

/-- `ThunkInfo::isEmpty`: both adjustments empty and no Method. -/
def ThunkInfo.isEmpty (t : ThunkInfo) : Bool :=
  ThisAdjustment.isEmpty t.This && ReturnAdjustment.isEmpty t.Return && decide (t.Method = none)

/-- The shared shape of both `operator<` definitions: offset first, then
the union byte-wise. -/
def adjLess {n : Nat} (nv1 nv2 : Int) (v1 v2 : UnionBytes n) : Bool :=
  if nv1 < nv2 then true
  else decide (nv1 = nv2) && UnionBytes.Less v1 v2

/-- Modelled from the spec: a multiversion candidate, one
(feature-predicate, implementation) pair of §4.5; `none` is the
trivially-true `default` predicate, `some f` requires detected hardware
feature `f`.  The resolver-builder code itself is not among the
repository's files — only the test expectations are — so the builder and
the selection walk below follow the spec's words. -/
structure MVCandidate where
  pred : Option Nat
  impl : Nat

/-- Modelled from the spec: what orders candidates most-specific-first —
the feature-name-to-priority table of the feature-model collaborator,
with the `default` predicate below every feature. -/
def candidatePriority (priority : Nat → Nat) (c : MVCandidate) : Nat :=
  match c.pred with
  | none => 0
  | some f => priority f

/-- Modelled from the spec: insert a candidate in front of the first
strictly-lower-priority entry (stable, highest priority first). -/
def insertCandidate (priority : Nat → Nat) (c : MVCandidate) :
    List MVCandidate → List MVCandidate
  | [] => [c]
  | d :: ds =>
      if candidatePriority priority d < candidatePriority priority c then c :: d :: ds
      else d :: insertCandidate priority c ds

/-- Modelled from the spec: sort candidates most-specific-first by the
priority table. -/
def sortCandidates (priority : Nat → Nat) : List MVCandidate → List MVCandidate
  | [] => []
  | c :: cs => insertCandidate priority c (sortCandidates priority cs)

/-- Modelled from the spec: the malformed-table build errors of §7 — no
fallback candidate, or more than one. -/
inductive ResolverError where
  | missingDefault : ResolverError
  | multipleDefaults : ResolverError

/-- Modelled from the spec: `build_resolver(candidates)` — exactly one
fallback (`default`) candidate must exist or the table is malformed
(fatal build error, no resolver emitted); on success the dispatch table
is the feature candidates in priority order, terminating in the
fallback. -/
def build_resolver (priority : Nat → Nat) (cands : List MVCandidate) :
    Except ResolverError (List MVCandidate) :=
  match cands.filter (fun c => c.pred.isNone) with
  | [] => Except.error ResolverError.missingDefault
  | [d] => Except.ok (sortCandidates priority (cands.filter (fun c => c.pred.isSome)) ++ [d])
  | _ :: _ :: _ => Except.error ResolverError.multipleDefaults

/-- Modelled from the spec: the emitted resolver's run-time walk — a
deterministic priority-ordered sequence of feature checks against the
detected feature set, terminating in the fallback. -/
def selectCandidate (detected : List Nat) : List MVCandidate → Option Nat
  | [] => none
  | c :: cs =>
      match c.pred with
      | none => some c.impl
      | some f => if detected.contains f then some c.impl else selectCandidate detected cs

/-- Modelled from the spec: build the dispatch table, then run the
selection walk on the detected feature set. -/
def runResolver (priority : Nat → Nat) (detected : List Nat)
    (cands : List MVCandidate) : Option Nat :=
  match build_resolver priority cands with
  | Except.ok table => selectCandidate detected table
  | Except.error _ => none

/-- Modelled from the spec: the resolver's one-way Unselected → Selected
state (§4.5), per logical function. -/
inductive ResolverState where
  | unselected : ResolverState
  | selected : Nat → ResolverState

/-- Modelled from the spec: one call through the resolved symbol — the
first call selects and caches, every later call reuses the cached
choice. -/
def callThrough (detected : List Nat) (cands : List MVCandidate) :
    ResolverState → ResolverState × Option Nat
  | ResolverState.unselected =>
      match selectCandidate detected cands with
      | some i => (ResolverState.selected i, some i)
      | none => (ResolverState.unselected, none)
  | ResolverState.selected i => (ResolverState.selected i, some i)

/-- Modelled from the spec: the result of the (n+1)-th call through the
symbol, starting from a given resolver state. -/
def callN (detected : List Nat) (cands : List MVCandidate) :
    Nat → ResolverState → ResolverState × Option Nat
  | 0, st => callThrough detected cands st
  | n + 1, st => callN detected cands n (callThrough detected cands st).1

/-- Feature codes for the concrete resolver scenario of the test file
(attr-target-mv-member-funcs.cpp): the emitted resolver checks
arch=sandybridge, then arch=ivybridge, then sse4.2, then default. -/
def sse42feat : Nat := 1

def ivybridgeArch : Nat := 2

def sandybridgeArch : Nat := 3

/-- The candidate list of the scenario, in declaration order:
[(ivybridge, A), (sandybridge, B), (sse4.2, C), (default, D)] with
implementations A = 10, B = 11, C = 12, D = 13. -/
def mvCandidatesExample : List MVCandidate :=
  [⟨some ivybridgeArch, 10⟩, ⟨some sandybridgeArch, 11⟩, ⟨some sse42feat, 12⟩, ⟨none, 13⟩]

/-- Modelled from the spec: a step of a ClassPath (§3) — contiguous
(from-class, to-class) hierarchy steps, each tagged
virtual-base-crossing or not, non-virtual steps carrying their fixed
sub-object byte offset. -/
structure PathStep where
  fromCls : Nat
  toCls : Nat
  isVirtualStep : Bool
  stepOffset : Int

/-- Modelled from the spec: the adjustment-calculator walk of §4.2 —
accumulate each non-virtual step's fixed offset; on the first
virtual-base step the accumulated prefix becomes fixed and the rest of
the path is deferred to the ABI strategy's virtual descriptor; the
calculator code itself is not among the repository's files. -/
def walkAdjustment {n : Nat} (encode : List PathStep → UnionBytes n) (acc : Int) :
    List PathStep → Int × UnionBytes n
  | [] => (acc, UnionBytes.zero n)
  | step :: rest =>
      if step.isVirtualStep then (acc, encode (step :: rest))
      else walkAdjustment encode (acc + step.stepOffset) rest

/-- Modelled from the spec: `compute_this_adjustment(path, abi)` of §4.2,
parameterized by the active ABI strategy's virtual encoder; carries the
full class path for downstream consumers. -/
def compute_this_adjustment (encode : List PathStep → UnionBytes 16)
    (t s : Option Nat) (path : List PathStep) : ThisAdjustment :=
  { NonVirtual := (walkAdjustment encode 0 path).1
    Virtual := (walkAdjustment encode 0 path).2
    AdjustmentTarget := t
    AdjustmentSource := s
    AdjustmentPath := path.map PathStep.fromCls }

/-- Modelled from the spec: `compute_return_adjustment(path, abi)` of
§4.2, its endpoints suppressed on byte-addressable targets as in the
ReturnAdjustment constructor. -/
def compute_return_adjustment (byteAddressable : Bool)
    (encode : List PathStep → UnionBytes 8) (t s : Option Nat)
    (path : List PathStep) : ReturnAdjustment :=
  { NonVirtual := (walkAdjustment encode 0 path).1
    Virtual := (walkAdjustment encode 0 path).2
    AdjustmentTarget := if byteAddressable then none else t
    AdjustmentSource := if byteAddressable then none else s }

/-- Modelled from the spec: `needs_thunk` of §4.3 — a thunk is needed iff
the this-adjustment is non-empty, the return-adjustment is non-empty, or
a disambiguating overridden-method identity is recorded. -/
def needs_thunk (ti : ThunkInfo) : Bool :=
  !ThisAdjustment.isEmpty ti.This || !ReturnAdjustment.isEmpty ti.Return
    || !decide (ti.Method = none)

/-- A trivial virtual encoder for concrete scenarios on paths with no
virtual step (it is never consulted there). -/
def noEncode16 : List PathStep → UnionBytes 16 := fun _ => UnionBytes.zero 16

/-- A trivial 8-byte virtual encoder for the same scenarios. -/
def noEncode8 : List PathStep → UnionBytes 8 := fun _ => UnionBytes.zero 8

/-- The concrete end-to-end scenario of §8: class B (id 1) derives
non-virtually from A (id 0) at offset 0. -/
def pathBA : List PathStep := [⟨1, 0, false, 0⟩]

/-- ReturnAdjustment with no adjustment and no endpoints recorded. -/
def raPlain : ReturnAdjustment := ReturnAdjustment.make false none none

/-- ReturnAdjustment with the same (empty) adjustment but a recorded
target endpoint. -/
def raTagged : ReturnAdjustment := ReturnAdjustment.make false (some 1) none

/-- A default thunk with the member-function-pointer flag set. -/
def mpFlagged : ThunkInfo :=
  { ThunkInfo.default with isMemberPointerThunk := true }

/-! ### Properties of the byte-wise union comparison -/

theorem memcmpBytes_self : ∀ l : List Nat, memcmpBytes l l = Ordering.eq
  | [] => rfl
  | a :: as => by simp [memcmpBytes, memcmpBytes_self as]

theorem memcmpBytes_swap : ∀ a b : List Nat, memcmpBytes b a = (memcmpBytes a b).swap
  | [], [] => rfl
  | [], _ :: _ => rfl
  | _ :: _, [] => rfl
  | a :: as, b :: bs => by
      by_cases h1 : a < b
      · have h2 : ¬ b < a := by omega
        simp [memcmpBytes, h1, h2, Ordering.swap]
      · by_cases h2 : b < a
        · simp [memcmpBytes, h1, h2, Ordering.swap]
        · simp [memcmpBytes, h1, h2, memcmpBytes_swap as bs]

theorem memcmpBytes_eq_iff : ∀ a b : List Nat, a.length = b.length →
    (memcmpBytes a b = Ordering.eq ↔ a = b)
  | [], [], _ => by simp [memcmpBytes]
  | a :: as, b :: bs, h => by
      have ih := memcmpBytes_eq_iff as bs (by simpa using h)
      by_cases h1 : a < b
      · simp only [memcmpBytes, if_pos h1]
        constructor
        · intro hc
          exact absurd hc (by simp)
        · intro hc
          have : a = b := (List.cons.injEq a as b bs ▸ hc).1
          omega
      · by_cases h2 : b < a
        · simp only [memcmpBytes, if_neg h1, if_pos h2]
          constructor
          · intro hc
            exact absurd hc (by simp)
          · intro hc
            have : a = b := (List.cons.injEq a as b bs ▸ hc).1
            omega
        · have hab : a = b := by omega
          subst hab
          simp [memcmpBytes, ih]

theorem memcmpBytes_lt_trans : ∀ a b c : List Nat,
    memcmpBytes a b = Ordering.lt → memcmpBytes b c = Ordering.lt →
    memcmpBytes a c = Ordering.lt := by
  intro a
  induction a with
  | nil => intro b c h1 _; simp [memcmpBytes] at h1
  | cons x xs ih =>
    intro b c h1 h2
    cases b with
    | nil => simp [memcmpBytes] at h1
    | cons y ys =>
      cases c with
      | nil => simp [memcmpBytes] at h2
      | cons z zs =>
        by_cases hxy : x < y
        · by_cases hyz : y < z
          · simp [memcmpBytes, show x < z by omega]
          · by_cases hzy : z < y
            · simp [memcmpBytes, hyz, hzy] at h2
            · simp [memcmpBytes, show x < z by omega]
        · by_cases hyx : y < x
          · simp [memcmpBytes, hxy, hyx] at h1
          · by_cases hyz : y < z
            · simp [memcmpBytes, show x < z by omega]
            · by_cases hzy : z < y
              · simp [memcmpBytes, hyz, hzy] at h2
              · have hx : memcmpBytes xs ys = Ordering.lt := by
                  simpa [memcmpBytes, hxy, hyx] using h1
                have hy : memcmpBytes ys zs = Ordering.lt := by
                  simpa [memcmpBytes, hyz, hzy] using h2
                have hxz : ¬ x < z := by omega
                have hzx : ¬ z < x := by omega
                simp only [memcmpBytes, if_neg hxz, if_neg hzx]
                exact ih ys zs hx hy

theorem memcmpBytes_zero_iff : ∀ l : List Nat,
    (memcmpBytes l (List.replicate l.length 0) = Ordering.eq ↔ ∀ b ∈ l, b = 0)
  | [] => by simp [memcmpBytes]
  | a :: as => by
      rw [List.length_cons, List.replicate_succ]
      by_cases h : 0 < a
      · simp only [memcmpBytes, if_neg (by omega : ¬ a < 0), if_pos h]
        constructor
        · intro hc
          exact absurd hc (by simp)
        · intro hc
          have : a = 0 := hc a (by simp)
          omega
      · have ha : a = 0 := by omega
        subst ha
        simp [memcmpBytes, memcmpBytes_zero_iff as]

theorem orderingBeq_true_iff (o1 o2 : Ordering) : (o1 == o2) = true ↔ o1 = o2 := by
  cases o1 <;> cases o2 <;> decide

theorem unionBytes_equals_iff {n : Nat} (a b : UnionBytes n) :
    UnionBytes.Equals a b = true ↔ a.bytes = b.bytes := by
  unfold UnionBytes.Equals
  rw [orderingBeq_true_iff]
  exact memcmpBytes_eq_iff a.bytes b.bytes (a.hlen.trans b.hlen.symm)

theorem unionBytes_isEmpty_iff {n : Nat} (a : UnionBytes n) :
    UnionBytes.isEmpty a = true ↔ ∀ b ∈ a.bytes, b = 0 := by
  unfold UnionBytes.isEmpty
  rw [unionBytes_equals_iff]
  show a.bytes = List.replicate n 0 ↔ _
  rw [List.eq_replicate_iff]
  simp [a.hlen]

theorem unionBytes_zero_isEmpty (n : Nat) : UnionBytes.isEmpty (UnionBytes.zero n) = true := by
  rw [unionBytes_isEmpty_iff]
  intro b hb
  exact List.eq_of_mem_replicate hb

theorem unionBytes_less_self {n : Nat} (a : UnionBytes n) : UnionBytes.Less a a = false := by
  unfold UnionBytes.Less
  rw [memcmpBytes_self]
  rfl

theorem unionBytes_less_of_bytes_eq {n : Nat} (a b : UnionBytes n) (h : a.bytes = b.bytes) :
    UnionBytes.Less a b = false := by
  unfold UnionBytes.Less
  rw [h, memcmpBytes_self]
  rfl

theorem unionBytes_less_trans {n : Nat} (a b c : UnionBytes n) :
    UnionBytes.Less a b = true → UnionBytes.Less b c = true → UnionBytes.Less a c = true := by
  unfold UnionBytes.Less
  rw [orderingBeq_true_iff, orderingBeq_true_iff, orderingBeq_true_iff]
  exact memcmpBytes_lt_trans a.bytes b.bytes c.bytes

theorem unionBytes_incomparable_iff {n : Nat} (a b : UnionBytes n) :
    (UnionBytes.Less a b = false ∧ UnionBytes.Less b a = false) ↔ a.bytes = b.bytes := by
  unfold UnionBytes.Less
  constructor
  · intro ⟨h1, h2⟩
    rw [← memcmpBytes_eq_iff a.bytes b.bytes (a.hlen.trans b.hlen.symm)]
    have hs := memcmpBytes_swap a.bytes b.bytes
    cases ho : memcmpBytes a.bytes b.bytes with
    | lt =>
        rw [ho] at h1
        exact absurd h1 (by decide)
    | eq => rfl
    | gt =>
        rw [ho] at hs
        rw [hs] at h2
        exact absurd h2 (by decide)
  · intro h
    rw [h, memcmpBytes_self]
    exact ⟨rfl, rfl⟩

theorem adjLess_refl_false {n : Nat} (nv : Int) (v : UnionBytes n) : adjLess nv nv v v = false := by
  unfold adjLess
  rw [if_neg (lt_irrefl nv), unionBytes_less_self]
  simp

theorem adjLess_true_iff {n : Nat} (nv1 nv2 : Int) (v1 v2 : UnionBytes n) :
    adjLess nv1 nv2 v1 v2 = true ↔
      (nv1 < nv2 ∨ (nv1 = nv2 ∧ UnionBytes.Less v1 v2 = true)) := by
  unfold adjLess
  by_cases h : nv1 < nv2
  · simp [h]
  · simp [h]

theorem adjLess_trans {n : Nat} (nv1 nv2 nv3 : Int) (v1 v2 v3 : UnionBytes n) :
    adjLess nv1 nv2 v1 v2 = true → adjLess nv2 nv3 v2 v3 = true →
    adjLess nv1 nv3 v1 v3 = true := by
  rw [adjLess_true_iff, adjLess_true_iff, adjLess_true_iff]
  intro h1 h2
  rcases h1 with h1 | ⟨h1e, h1v⟩
  · rcases h2 with h2 | ⟨h2e, h2v⟩
    · exact Or.inl (by omega)
    · exact Or.inl (by omega)
  · rcases h2 with h2 | ⟨h2e, h2v⟩
    · exact Or.inl (by omega)
    · exact Or.inr ⟨by omega, unionBytes_less_trans v1 v2 v3 h1v h2v⟩

theorem adjLess_incomparable_iff {n : Nat} (nv1 nv2 : Int) (v1 v2 : UnionBytes n) :
    (adjLess nv1 nv2 v1 v2 = false ∧ adjLess nv2 nv1 v2 v1 = false) ↔
      (nv1 = nv2 ∧ v1.bytes = v2.bytes) := by
  constructor
  · intro ⟨h1, h2⟩
    unfold adjLess at h1 h2
    have hnv : nv1 = nv2 := by
      by_cases c1 : nv1 < nv2
      · rw [if_pos c1] at h1
        exact absurd h1 (by decide)
      · by_cases c2 : nv2 < nv1
        · rw [if_pos c2] at h2
          exact absurd h2 (by decide)
        · omega
    subst hnv
    rw [if_neg (lt_irrefl nv1)] at h1 h2
    have hd : decide (nv1 = nv1) = true := by simp
    rw [hd, Bool.true_and] at h1 h2
    exact ⟨rfl, (unionBytes_incomparable_iff v1 v2).mp ⟨h1, h2⟩⟩
  · intro ⟨h1, h2⟩
    subst h1
    unfold adjLess
    rw [if_neg (lt_irrefl nv1), if_neg (lt_irrefl nv1)]
    rw [unionBytes_less_of_bytes_eq v1 v2 h2, unionBytes_less_of_bytes_eq v2 v1 h2.symm]
    simp

/-! ### Characterizations of the ABI.h operators -/

theorem returnAdjustment_ltOp_eq_adjLess (x y : ReturnAdjustment) :
    ReturnAdjustment.ltOp x y = adjLess x.NonVirtual y.NonVirtual x.Virtual y.Virtual := rfl

theorem thisAdjustment_ltOp_eq_adjLess (x y : ThisAdjustment) :
    ThisAdjustment.ltOp x y = adjLess x.NonVirtual y.NonVirtual x.Virtual y.Virtual := rfl

theorem returnAdjustment_eqOp_iff (x y : ReturnAdjustment) :
    ReturnAdjustment.eqOp x y = true ↔
      (x.NonVirtual = y.NonVirtual ∧ x.Virtual.bytes = y.Virtual.bytes
        ∧ x.AdjustmentSource = y.AdjustmentSource
        ∧ x.AdjustmentTarget = y.AdjustmentTarget) := by
  unfold ReturnAdjustment.eqOp
  simp [unionBytes_equals_iff, and_assoc]

theorem thisAdjustment_eqOp_iff (x y : ThisAdjustment) :
    ThisAdjustment.eqOp x y = true ↔
      (x.NonVirtual = y.NonVirtual ∧ x.Virtual.bytes = y.Virtual.bytes) := by
  unfold ThisAdjustment.eqOp
  simp [unionBytes_equals_iff]

theorem returnAdjustment_isEmpty_iff (x : ReturnAdjustment) :
    ReturnAdjustment.isEmpty x = true ↔
      (x.NonVirtual = 0 ∧ ∀ b ∈ x.Virtual.bytes, b = 0) := by
  unfold ReturnAdjustment.isEmpty
  simp [unionBytes_isEmpty_iff]

theorem thisAdjustment_isEmpty_iff (x : ThisAdjustment) :
    ThisAdjustment.isEmpty x = true ↔
      (x.NonVirtual = 0 ∧ ∀ b ∈ x.Virtual.bytes, b = 0) := by
  unfold ThisAdjustment.isEmpty
  simp [unionBytes_isEmpty_iff]

theorem returnAdjustment_eqOp_refl (x : ReturnAdjustment) :
    ReturnAdjustment.eqOp x x = true := by
  rw [returnAdjustment_eqOp_iff]
  exact ⟨rfl, rfl, rfl, rfl⟩

theorem thisAdjustment_eqOp_refl (x : ThisAdjustment) :
    ThisAdjustment.eqOp x x = true := by
  rw [thisAdjustment_eqOp_iff]
  exact ⟨rfl, rfl⟩

/-! ### Resolver state and adjustment-walk lemmas -/

theorem callThrough_state_of_some (detected : List Nat) (cands : List MVCandidate)
    (st : ResolverState) (impl : Nat)
    (h : (callThrough detected cands st).2 = some impl) :
    (callThrough detected cands st).1 = ResolverState.selected impl := by
  cases st with
  | unselected =>
      unfold callThrough at h ⊢
      cases hsel : selectCandidate detected cands with
      | none => simp_all
      | some i => simp_all
  | selected i =>
      unfold callThrough at h ⊢
      simp_all

theorem callN_selected (detected : List Nat) (cands : List MVCandidate) (impl : Nat) :
    ∀ n : Nat, callN detected cands n (ResolverState.selected impl)
      = (ResolverState.selected impl, some impl)
  | 0 => rfl
  | n + 1 => by
      unfold callN
      exact callN_selected detected cands impl n

theorem walkAdjustment_nonvirtual {n : Nat} (encode : List PathStep → UnionBytes n) :
    ∀ (path : List PathStep) (acc : Int), (∀ st ∈ path, st.isVirtualStep = false) →
      walkAdjustment encode acc path
        = (acc + (path.map PathStep.stepOffset).sum, UnionBytes.zero n)
  | [], acc, _ => by simp [walkAdjustment]
  | step :: rest, acc, h => by
      have h1 : step.isVirtualStep = false := h step (by simp)
      have h2 : ∀ st ∈ rest, st.isVirtualStep = false := fun st hst => h st (by simp [hst])
      simp only [walkAdjustment, h1, Bool.false_eq_true, if_false, List.map_cons,
        List.sum_cons]
      rw [walkAdjustment_nonvirtual encode rest (acc + step.stepOffset) h2]
      rw [add_assoc]

/-! ### The claims -/

/-- Claim C1: `ThunkInfo::isEmpty()` returns true exactly when the This
adjustment is empty, the Return adjustment is empty, and the
overridden-method disambiguator (Method) is null. -/
theorem thunkInfo_isEmpty_conjunction :
    ∀ t : ThunkInfo, ThunkInfo.isEmpty t = true ↔
      (ThisAdjustment.isEmpty t.This = true ∧ ReturnAdjustment.isEmpty t.Return = true
        ∧ t.Method = none) := by
  intro t
  unfold ThunkInfo.isEmpty
  simp [and_assoc]

/-- Claim C2: for both ReturnAdjustment and ThisAdjustment, `isEmpty()`
holds iff the non-virtual offset is zero and every byte of the
virtual-adjustment union is zero; and each constructor (zero offset,
zero-initialized virtual union) yields an adjustment satisfying
`isEmpty()`. -/
theorem adjustment_isEmpty_spec :
    (∀ a : ReturnAdjustment, ReturnAdjustment.isEmpty a = true ↔
        (a.NonVirtual = 0 ∧ ∀ b ∈ a.Virtual.bytes, b = 0))
    ∧ (∀ a : ThisAdjustment, ThisAdjustment.isEmpty a = true ↔
        (a.NonVirtual = 0 ∧ ∀ b ∈ a.Virtual.bytes, b = 0))
    ∧ (∀ (ba : Bool) (t s : Option Nat),
        ReturnAdjustment.isEmpty (ReturnAdjustment.make ba t s) = true)
    ∧ (∀ t s : Option Nat, ThisAdjustment.isEmpty (ThisAdjustment.make t s) = true) := by
  refine ⟨returnAdjustment_isEmpty_iff, thisAdjustment_isEmpty_iff, ?_, ?_⟩
  · intro ba t s
    rw [returnAdjustment_isEmpty_iff]
    exact ⟨rfl, fun b hb => List.eq_of_mem_replicate hb⟩
  · intro t s
    rw [thisAdjustment_isEmpty_iff]
    exact ⟨rfl, fun b hb => List.eq_of_mem_replicate hb⟩

/-- Claim C3 counterexample: two ReturnAdjustment values that differ only
in their AdjustmentTarget endpoint are incomparable under `operator<`
(neither is less than the other) yet `operator==` distinguishes them,
so the equivalence induced by the order does not coincide with
`operator==`. -/
theorem returnAdjustment_incomparable_not_equal :
    ReturnAdjustment.ltOp raPlain raTagged = false
    ∧ ReturnAdjustment.ltOp raTagged raPlain = false
    ∧ ReturnAdjustment.eqOp raPlain raTagged = false := by
  decide

/-- Claim C3 (amended): for both ReturnAdjustment and ThisAdjustment,
`operator<` compares the non-virtual offset first and then the virtual
union byte-wise and is a strict weak order (irreflexive, transitive,
with transitive incomparability); the equivalence it induces is
equality of the non-virtual offset and the virtual-union bytes — for
ThisAdjustment this coincides with `operator==`, while for
ReturnAdjustment `operator==` additionally compares the endpoints, so
the induced equivalence is coarser than `operator==`. -/
theorem adjustment_ltOp_strict_weak_order :
    (∀ x : ReturnAdjustment, ReturnAdjustment.ltOp x x = false)
    ∧ (∀ x y z : ReturnAdjustment, ReturnAdjustment.ltOp x y = true →
        ReturnAdjustment.ltOp y z = true → ReturnAdjustment.ltOp x z = true)
    ∧ (∀ x y z : ReturnAdjustment,
        (ReturnAdjustment.ltOp x y = false ∧ ReturnAdjustment.ltOp y x = false) →
        (ReturnAdjustment.ltOp y z = false ∧ ReturnAdjustment.ltOp z y = false) →
        (ReturnAdjustment.ltOp x z = false ∧ ReturnAdjustment.ltOp z x = false))
    ∧ (∀ x y : ReturnAdjustment,
        (ReturnAdjustment.ltOp x y = false ∧ ReturnAdjustment.ltOp y x = false) ↔
          (x.NonVirtual = y.NonVirtual ∧ x.Virtual.bytes = y.Virtual.bytes))
    ∧ (∀ x : ThisAdjustment, ThisAdjustment.ltOp x x = false)
    ∧ (∀ x y z : ThisAdjustment, ThisAdjustment.ltOp x y = true →
        ThisAdjustment.ltOp y z = true → ThisAdjustment.ltOp x z = true)
    ∧ (∀ x y : ThisAdjustment,
        (ThisAdjustment.ltOp x y = false ∧ ThisAdjustment.ltOp y x = false) ↔
          ThisAdjustment.eqOp x y = true) := by
  refine ⟨?_, ?_, ?_, ?_, ?_, ?_, ?_⟩
  · intro x
    rw [returnAdjustment_ltOp_eq_adjLess]
    exact adjLess_refl_false _ _
  · intro x y z h1 h2
    rw [returnAdjustment_ltOp_eq_adjLess] at h1 h2 ⊢
    exact adjLess_trans _ _ _ _ _ _ h1 h2
  · intro x y z h1 h2
    rw [returnAdjustment_ltOp_eq_adjLess, returnAdjustment_ltOp_eq_adjLess] at h1 h2 ⊢
    rw [adjLess_incomparable_iff] at h1 h2 ⊢
    exact ⟨h1.1.trans h2.1, h1.2.trans h2.2⟩
  · intro x y
    rw [returnAdjustment_ltOp_eq_adjLess, returnAdjustment_ltOp_eq_adjLess]
    exact adjLess_incomparable_iff _ _ _ _
  · intro x
    rw [thisAdjustment_ltOp_eq_adjLess]
    exact adjLess_refl_false _ _
  · intro x y z h1 h2
    rw [thisAdjustment_ltOp_eq_adjLess] at h1 h2 ⊢
    exact adjLess_trans _ _ _ _ _ _ h1 h2
  · intro x y
    rw [thisAdjustment_ltOp_eq_adjLess, thisAdjustment_ltOp_eq_adjLess]
    rw [adjLess_incomparable_iff, thisAdjustment_eqOp_iff]

/-- Claim C4 counterexample: ThisAdjustment `operator==` ignores the
endpoints — two ThisAdjustment values that differ only in
AdjustmentTarget compare equal, while the corresponding
ReturnAdjustment values (same offset, same union bytes, same differing
endpoints) compare unequal, so equality does not treat the endpoints
alike in both types. -/
theorem thisAdjustment_equal_despite_endpoints :
    ThisAdjustment.eqOp (ThisAdjustment.make (some 1) none)
        (ThisAdjustment.make (some 2) none) = true
    ∧ (ThisAdjustment.make (some 1) none).AdjustmentTarget
        ≠ (ThisAdjustment.make (some 2) none).AdjustmentTarget
    ∧ ReturnAdjustment.eqOp (ReturnAdjustment.make false (some 1) none)
        (ReturnAdjustment.make false (some 2) none) = false := by
  decide

/-- Claim C4 (amended): ThisAdjustment shares ReturnAdjustment's ordering
and emptiness contract, but its `operator==` compares only the
non-virtual offset and the virtual union — the source/target endpoints
and the path do not participate — whereas ReturnAdjustment's
`operator==` additionally compares both endpoints. -/
theorem adjustment_equality_contract :
    (∀ x y : ThisAdjustment, ThisAdjustment.eqOp x y = true ↔
        (x.NonVirtual = y.NonVirtual ∧ x.Virtual.bytes = y.Virtual.bytes))
    ∧ (∀ x y : ReturnAdjustment, ReturnAdjustment.eqOp x y = true ↔
        (x.NonVirtual = y.NonVirtual ∧ x.Virtual.bytes = y.Virtual.bytes
          ∧ x.AdjustmentSource = y.AdjustmentSource
          ∧ x.AdjustmentTarget = y.AdjustmentTarget)) :=
  ⟨thisAdjustment_eqOp_iff, returnAdjustment_eqOp_iff⟩

/-- Claim C5: the ReturnAdjustment constructor yields NULL endpoints when
byteAddressable is true, the given endpoints when it is false, and in
both cases initializes NonVirtual to 0. -/
theorem returnAdjustment_ctor_spec :
    ∀ t s : Option Nat,
      ((ReturnAdjustment.make true t s).AdjustmentTarget = none
        ∧ (ReturnAdjustment.make true t s).AdjustmentSource = none)
      ∧ ((ReturnAdjustment.make false t s).AdjustmentTarget = t
        ∧ (ReturnAdjustment.make false t s).AdjustmentSource = s)
      ∧ (∀ ba : Bool, (ReturnAdjustment.make ba t s).NonVirtual = 0) :=
  fun _ _ => ⟨⟨rfl, rfl⟩, ⟨rfl, rfl⟩, fun _ => rfl⟩

/-- Claim C6: on candidates [(ivybridge, A), (sandybridge, B), (sse4.2, C),
(default, D)] with implementations A = 10, B = 11, C = 12, D = 13, and
detected features {sse4.2, ivybridge}, the built resolver selects A —
never C or D. -/
theorem resolver_selects_most_specific :
    runResolver id [sse42feat, ivybridgeArch] mvCandidatesExample = some 10
    ∧ runResolver id [sse42feat, ivybridgeArch] mvCandidatesExample ≠ some 12
    ∧ runResolver id [sse42feat, ivybridgeArch] mvCandidatesExample ≠ some 13 := by
  decide

/-- Claim C7: a candidate list containing no `default` candidate makes
`build_resolver` fail with the malformed-table error and emit no
dispatch table. -/
theorem build_resolver_missing_default (priority : Nat → Nat)
    (cands : List MVCandidate) (h : ∀ c ∈ cands, c.pred ≠ none) :
    build_resolver priority cands = Except.error ResolverError.missingDefault
    ∧ ∀ table : List MVCandidate, build_resolver priority cands ≠ Except.ok table := by
  have hf : cands.filter (fun c => c.pred.isNone) = [] := by
    rw [List.filter_eq_nil_iff]
    intro c hc
    simpa using h c hc
  constructor
  · unfold build_resolver
    rw [hf]
  · intro table
    unfold build_resolver
    rw [hf]
    simp

/-- Witness for claim C7 at a concrete list with no default candidate. -/
theorem build_resolver_missing_default_witness :
    build_resolver id [⟨some 1, 0⟩] = Except.error ResolverError.missingDefault
    ∧ ∀ table : List MVCandidate, build_resolver id [⟨some 1, 0⟩] ≠ Except.ok table :=
  build_resolver_missing_default id [⟨some 1, 0⟩] (by decide)

/-- Claim C8: resolver selection is referentially stable — equal detected
feature inputs give equal selections, and once a call has selected an
implementation, every subsequent call through the cached resolver state
returns that same implementation. -/
theorem resolver_referentially_stable :
    (∀ (d1 d2 : List Nat) (cands : List MVCandidate), d1 = d2 →
        selectCandidate d1 cands = selectCandidate d2 cands)
    ∧ (∀ (detected : List Nat) (cands : List MVCandidate) (st : ResolverState) (impl : Nat),
        (callThrough detected cands st).2 = some impl →
        ∀ n : Nat, (callN detected cands n (callThrough detected cands st).1).2 = some impl) := by
  constructor
  · intro d1 d2 cands h
    rw [h]
  · intro detected cands st impl h n
    rw [callThrough_state_of_some detected cands st impl h]
    rw [callN_selected detected cands impl n]

/-- Claim C9: on any path with zero virtual-base crossings both
`compute_this_adjustment` and `compute_return_adjustment` produce an
empty virtual component and a non-virtual offset equal to the sum of
the path's fixed sub-object offsets; in the concrete B : A scenario
(single non-virtual inheritance at offset 0) the this-adjustment is
exactly {NonVirtual: 0, Virtual: empty} and no thunk is required. -/
theorem nonvirtual_path_adjustment :
    (∀ (encode16 : List PathStep → UnionBytes 16) (encode8 : List PathStep → UnionBytes 8)
        (ba : Bool) (t s : Option Nat) (path : List PathStep),
        (∀ st ∈ path, st.isVirtualStep = false) →
        ((compute_this_adjustment encode16 t s path).NonVirtual
            = (path.map PathStep.stepOffset).sum
          ∧ UnionBytes.isEmpty (compute_this_adjustment encode16 t s path).Virtual = true
          ∧ (compute_return_adjustment ba encode8 t s path).NonVirtual
            = (path.map PathStep.stepOffset).sum
          ∧ UnionBytes.isEmpty (compute_return_adjustment ba encode8 t s path).Virtual = true))
    ∧ ((compute_this_adjustment noEncode16 none none pathBA).NonVirtual = 0
        ∧ UnionBytes.isEmpty (compute_this_adjustment noEncode16 none none pathBA).Virtual = true
        ∧ needs_thunk (ThunkInfo.ofParts (compute_this_adjustment noEncode16 none none pathBA)
            (compute_return_adjustment true noEncode8 none none pathBA) none) = false) := by
  constructor
  · intro encode16 encode8 ba t s path h
    have h16 := walkAdjustment_nonvirtual encode16 path 0 h
    have h8 := walkAdjustment_nonvirtual encode8 path 0 h
    refine ⟨?_, ?_, ?_, ?_⟩
    · show (walkAdjustment encode16 0 path).1 = _
      rw [h16]
      exact zero_add _
    · show UnionBytes.isEmpty (walkAdjustment encode16 0 path).2 = true
      rw [h16]
      exact unionBytes_zero_isEmpty 16
    · show (walkAdjustment encode8 0 path).1 = _
      rw [h8]
      exact zero_add _
    · show UnionBytes.isEmpty (walkAdjustment encode8 0 path).2 = true
      rw [h8]
      exact unionBytes_zero_isEmpty 8
  · refine ⟨?_, ?_, ?_⟩ <;> decide

/-- Claim C10: the isMemberPointerThunk flag participates in neither
`operator==` nor `isEmpty()` — ThunkInfo values agreeing on This,
Return and Method compare equal whatever their flags, and a thunk with
both adjustments empty and no Method is empty even with the flag set. -/
theorem memberPointerThunk_flag_irrelevant :
    (∀ t1 t2 : ThunkInfo, t1.This = t2.This → t1.Return = t2.Return →
        t1.Method = t2.Method → ThunkInfo.eqOp t1 t2 = true)
    ∧ (∀ t : ThunkInfo, ThisAdjustment.isEmpty t.This = true →
        ReturnAdjustment.isEmpty t.Return = true → t.Method = none →
        ThunkInfo.isEmpty t = true)
    ∧ (ThunkInfo.eqOp mpFlagged ThunkInfo.default = true
        ∧ mpFlagged.isMemberPointerThunk ≠ ThunkInfo.default.isMemberPointerThunk
        ∧ ThunkInfo.isEmpty mpFlagged = true
        ∧ mpFlagged.isMemberPointerThunk = true) := by
  refine ⟨?_, ?_, ?_⟩
  · intro t1 t2 h1 h2 h3
    unfold ThunkInfo.eqOp
    rw [h1, h2, h3]
    simp [thisAdjustment_eqOp_refl, returnAdjustment_eqOp_refl]
  · intro t h1 h2 h3
    unfold ThunkInfo.isEmpty
    rw [h1, h2, h3]
    simp
  · decide
